import Mathlib

/-!
Shallow embedding of the phishing-website naive Bayes classifier
(source notebook: Phishing_Website_Classification.ipynb).

A dataset row (a numpy structured-array record) is modelled as a total map
from column name to integer cell value; the label column is named "Result".
Python floats are modelled as exact rationals, and the float functions
`log` / comparison are handled at the statement level via `Real.log`
together with strict monotonicity of the logarithm: the notebook compares
sums of logarithms, the embedding tracks the corresponding products of
rationals and compares those, with positivity guards mirroring the domain
error that `math.log` raises on a nonpositive argument.
-/

/-- One dataset row: column name to integer cell value. -/
abbrev Site := String → Int

/-- The per-feature loop body of `calc_feature_impact`: one pass over the
dataset computing `(feat_tot, phishing_feat, phishing_not_feat)` for a
single feature column, exactly as the notebook loop does. -/
def impact_counts (threshold : Int) (name : String) (data : List Site) :
    Nat × Nat × Nat :=
  data.foldl
    (fun acc site =>
      if threshold ≤ site name then
        (acc.1 + 1,
         (if site "Result" = 1 then acc.2.1 + 1 else acc.2.1),
         acc.2.2)
      else
        (acc.1,
         acc.2.1,
         (if site "Result" = 1 then acc.2.2 + 1 else acc.2.2)))
    (0, 0, 0)

/-- The ratio `ratios[i]` computed by `calc_feature_impact` for one feature:
`P(Y = 1 | X_i >= threshold) / P(Y = 1 | X_i < threshold)`, both
Laplace-smoothed as in the source. -/
def feature_ratio (threshold : Int) (name : String) (data : List Site) : ℚ :=
  let c := impact_counts threshold name data
  let p_y1_given_xi_geq_thresh : ℚ := ((c.2.1 : ℚ) + 1) / ((c.1 : ℚ) + 2)
  let p_y1_given_xi_lt_thresh : ℚ :=
    ((c.2.2 : ℚ) + 1) / ((data.length : ℚ) - (c.1 : ℚ) + 2)
  p_y1_given_xi_geq_thresh / p_y1_given_xi_lt_thresh

/-- `calc_feature_impact(threshold, n_features)` from the notebook,
parameterised by the column-name tuple and the dataset that the source
reads from globals (`data_raw.dtype.names`, `data_raw`).  The column range
`range(1, len(data_raw[0]) - 1)` skips the first column (`id`) and the last
(`Result`).  Python `sorted` (stable, ascending by the ratio value) is
`List.mergeSort`, and the slice `sorted_ratios[len(sorted_ratios) - n_features :]`
is `drop (length - n_features)` (the two agree whenever
`n_features ≤ length`, which the development assumes throughout). -/
def calc_feature_impact (threshold : Int) (n_features : Nat)
    (names : List String) (data : List Site) : List String :=
  let ratios := (List.range' 1 (names.length - 2)).map
    (fun i => (i, feature_ratio threshold (names.getD i "") data))
  let sorted_ratios := ratios.mergeSort (fun a b => decide (a.2 ≤ b.2))
  let result := sorted_ratios.drop (sorted_ratios.length - n_features)
  result.map (fun i => names.getD i.1 "")

/-- `cond_prob(feat, feat_val, y, data)`: one pass over the data counting
`y_tot` (rows with `Result == y`) and `feat_given_y` (rows additionally
having `site[feat] == feat_val`), returning the Laplace-smoothed
`(feat_given_y + 1) / (y_tot + 2)`. -/
def cond_prob (feat : String) (feat_val : Int) (y : Int) (data : List Site) : ℚ :=
  let c := data.foldl
    (fun (acc : Nat × Nat) site =>
      if site "Result" = y then
        (acc.1 + 1, (if site feat = feat_val then acc.2 + 1 else acc.2))
      else acc)
    (0, 0)
  ((c.2 : ℚ) + 1) / ((c.1 : ℚ) + 2)

/-- `calc_support(X, data)`.  In the source, `dict.fromkeys(X, set())` binds
every key of `X` to the **same** set object, so each
`support[X_i].add(site[X_i])` inserts into that one shared set; the
function therefore returns, for every selected feature, the identical set
of all values observed for **any** selected feature. -/
def calc_support (X : List String) (data : List Site) : String → Finset Int :=
  let shared : Finset Int :=
    data.foldl (fun s site => X.foldl (fun s2 X_i => insert (site X_i) s2) s) ∅
  fun X_i => if X_i ∈ X then shared else ∅

/-- The nested conditional-probability table: feature name to (stringified
feature value to the pair `(P(value | Y = -1), P(value | Y = 1))`).
Python dicts are insertion-ordered association lists with unique keys. -/
abbrev ProbTable := List (String × List (String × (ℚ × ℚ)))

/-- `calc_probs_given_y(X, data)`: for each selected feature, a dict from
`str(val)` (for `val` in the computed support) to
`(cond_prob(X_i, val, -1, data), cond_prob(X_i, val, 1, data))`.  Python
set iteration order is unspecified; the embedding enumerates the support
in increasing value order, which affects no lookup and no claim. -/
def calc_probs_given_y (X : List String) (data : List Site) : ProbTable :=
  X.map (fun X_i =>
    (X_i,
     ((calc_support X data X_i).sort (· ≤ ·)).map
       (fun val =>
         (toString val, (cond_prob X_i val (-1) data, cond_prob X_i val 1 data)))))

/-- `calc_p_y(data)`: the unsmoothed prior `tot_phish / len(data)`. -/
def calc_p_y (data : List Site) : ℚ :=
  let tot_phish := data.foldl
    (fun acc site => if site "Result" = 1 then acc + 1 else acc) (0 : Nat)
  (tot_phish : ℚ) / (data.length : ℚ)

/-- `train(X, data) = (calc_probs_given_y(X, data), calc_p_y(data))`. -/
def train (X : List String) (data : List Site) : ProbTable × ℚ :=
  (calc_probs_given_y X data, calc_p_y data)

/-- The two-level dict lookup `probs_given_y[X_i][v]`, `none` on a missing
key at either level (Python raises `KeyError` there). -/
def lookupPair (probs : ProbTable) (X_i v : String) : Option (ℚ × ℚ) :=
  (List.lookup X_i probs).bind (fun inner => List.lookup v inner)

/-- The two ways a call of `prediction` can raise in Python: `KeyError`
from a missing dict key, or `ValueError: math domain error` from `log`
applied to a nonpositive argument. -/
inductive PredErr where
  | keyError
  | domainError
deriving DecidableEq

/-- The feature loop of `prediction`, tracking the two log-domain scores as
products: entering the loop with scores `log acc_neg` and `log acc_pos`,
each iteration looks up `probs_given_y[X_i][str(site[X_i])]` (a `KeyError`
if absent) and multiplies each accumulator by the corresponding component
(a domain error if `log` would receive a nonpositive argument, checked in
source order: component 0, then component 1). -/
def predGo (site : Site) (probs : ProbTable) :
    List String → ℚ → ℚ → Except PredErr (ℚ × ℚ)
  | [], acc_neg, acc_pos => .ok (acc_neg, acc_pos)
  | X_i :: rest, acc_neg, acc_pos =>
    match lookupPair probs X_i (toString (site X_i)) with
    | none => .error .keyError
    | some p =>
      if p.1 ≤ 0 then .error .domainError
      else if p.2 ≤ 0 then .error .domainError
      else predGo site probs rest (acc_neg * p.1) (acc_pos * p.2)

/-- `prediction(site, X, probs_given_y, p_y)`.  The source initialises
`X_y_neg1 = log(1 - p_y)` and `X_y_1 = log(p_y)` (in that order, so a
nonpositive `1 - p_y` raises first), accumulates the per-feature
log-probabilities, and returns `X_y_1 > X_y_neg1`.  The embedding carries
the products whose logarithms the two scores are; the final comparison
`acc_pos > acc_neg` agrees with the log-score comparison because `log` is
strictly monotone on positives. -/
def prediction (site : Site) (X : List String) (probs_given_y : ProbTable)
    (p_y : ℚ) : Except PredErr Bool :=
  if 1 - p_y ≤ 0 then .error .domainError
  else if p_y ≤ 0 then .error .domainError
  else
    match predGo site probs_given_y X (1 - p_y) p_y with
    | .error e => .error e
    | .ok acc => .ok (decide (acc.1 < acc.2))

/-- JSON values as written to / read from `model.txt` (only the forms the
model file uses: numbers, arrays, objects).  Python floats round-trip
exactly through `json.dump` / `json.load`, so numbers are exact rationals. -/
inductive JVal where
  | num (q : ℚ)
  | arr (l : List JVal)
  | obj (l : List (String × JVal))

/-- A top-level value of the model dict: either an inner per-feature table
or the scalar prior stored under the reserved key `p_y` (the Python dict
is heterogeneous). -/
abbrev TopVal := List (String × (ℚ × ℚ)) ⊕ ℚ

/-- The model dict that `save_model` writes and `load_model` returns. -/
abbrev ModelDict := List (String × TopVal)

/-- A trained table viewed as a model dict (every top-level value is an
inner table). -/
def toModelDict (t : ProbTable) : ModelDict :=
  t.map (fun e => (e.1, Sum.inl e.2))

/-- Python dict item assignment `d[k] = v`: replace in place if the key is
present, otherwise append at the end. -/
def setKey (d : ModelDict) (k : String) (v : TopVal) : ModelDict :=
  if d.any (fun e => e.1 == k) then
    d.map (fun e => if e.1 == k then (k, v) else e)
  else d ++ [(k, v)]

/-- JSON form of one top-level value: an inner table becomes an object
mapping each stringified value to the two-element array
`[P(value | Y = -1), P(value | Y = 1)]`; the prior stays a number. -/
def dumpTop : TopVal → JVal
  | .inl inner => .obj (inner.map (fun e => (e.1, .arr [.num e.2.1, .num e.2.2])))
  | .inr q => .num q

/-- The JSON object `json.dump` writes for a model dict. -/
def dumpModel (d : ModelDict) : JVal :=
  .obj (d.map (fun e => (e.1, dumpTop e.2)))

/-- `save_model(probs_given_y, p_y)`.  In the source, `model = probs_given_y`
aliases the dict owned by the caller, so `model["p_y"] = p_y` mutates it;
the first component is the caller-visible dict after the call and the
second is the JSON written to `model.txt`. -/
def save_model (probs_given_y : ModelDict) (p_y : ℚ) : ModelDict × JVal :=
  let model := setKey probs_given_y "p_y" (.inr p_y)
  (model, dumpModel model)

/-- Parse one inner table object back from JSON. -/
def parseInner : List (String × JVal) → Option (List (String × (ℚ × ℚ)))
  | [] => some []
  | (k, .arr [.num a, .num b]) :: rest =>
    (parseInner rest).map (fun r => (k, (a, b)) :: r)
  | _ => none

/-- Parse one top-level JSON value of the model file. -/
def parseTop : JVal → Option TopVal
  | .num q => some (.inr q)
  | .obj l => (parseInner l).map Sum.inl
  | _ => none

/-- Parse the entry list of the top-level JSON object. -/
def parseEntries : List (String × JVal) → Option ModelDict
  | [] => some []
  | (k, v) :: rest =>
    match parseTop v with
    | none => none
    | some t => (parseEntries rest).map (fun r => (k, t) :: r)

/-- `load_model()`: read the JSON back into the nested dict. -/
def load_model : JVal → Option ModelDict
  | .obj l => parseEntries l
  | _ => none

/-- How a run of `test` can raise: an exception propagating out of
`prediction`, or a `ZeroDivisionError` from one of the three printed
metrics. -/
inductive EvalError where
  | predFail (e : PredErr)
  | zeroDiv
deriving DecidableEq

/-- The evaluation loop of `test`, accumulating
`(correctly_phish, correctly_not_phish, predicted_phish, actual_phish)`
over the test rows; an exception from `prediction` aborts the run. -/
def tallyGo (X : List String) (probs : ProbTable) (p_y : ℚ) :
    List Site → Nat × Nat × Nat × Nat → Except PredErr (Nat × Nat × Nat × Nat)
  | [], acc => .ok acc
  | site :: rest, (cp, cnp, pp, ap) =>
    match prediction site X probs p_y with
    | .error e => .error e
    | .ok phishPredicted =>
      tallyGo X probs p_y rest
        ((if phishPredicted ∧ site "Result" = 1 then cp + 1 else cp),
         (if ¬ phishPredicted ∧ site "Result" = -1 then cnp + 1 else cnp),
         (if phishPredicted then pp + 1 else pp),
         (if site "Result" = 1 then ap + 1 else ap))

/-- `test(X, train_data, test_data)`: train, score every test row, then
print accuracy, precision, recall — each a bare division, raising
`ZeroDivisionError` when its denominator (`len(test_data)`,
`predicted_phish`, `actual_phish` respectively, in print order) is zero. -/
def test (X : List String) (train_data test_data : List Site) :
    Except EvalError (ℚ × ℚ × ℚ) :=
  let m := train X train_data
  match tallyGo X m.1 m.2 test_data (0, 0, 0, 0) with
  | .error e => .error (.predFail e)
  | .ok (cp, cnp, pp, ap) =>
    if test_data.length = 0 then .error .zeroDiv
    else if pp = 0 then .error .zeroDiv
    else if ap = 0 then .error .zeroDiv
    else .ok
      (((cp : ℚ) + (cnp : ℚ)) / (test_data.length : ℚ),
       (cp : ℚ) / (pp : ℚ),
       (cp : ℚ) / (ap : ℚ))

/-- Concrete row used in examples: feature `A` is 0, feature `B` is 1,
every other column (in particular `Result`) is -1. -/
def siteAB : Site := fun n => if n = "A" then 0 else if n = "B" then 1 else -1

/-- Concrete row whose every column is -1 (a legitimate-class row). -/
def siteNeg : Site := fun _ => -1

/-- Concrete row: feature `A` is 0, `Result` is -1. -/
def siteA0neg : Site := fun n => if n = "A" then 0 else -1

/-- Concrete row: feature `A` is 0, `Result` is 1. -/
def siteA0pos : Site := fun n => if n = "Result" then 1 else 0

/-! ### Helper lemmas: loop counters as `countP`, lookup facts -/

theorem lookup_some_mem {β : Type} {k : String} {l : List (String × β)} {b : β}
    (h : List.lookup k l = some b) : (k, b) ∈ l := by
  induction l with
  | nil => simp [List.lookup] at h
  | cons e t ih =>
    obtain ⟨k1, v1⟩ := e
    rw [List.lookup_cons] at h
    by_cases hk : k = k1
    · rw [beq_iff_eq.mpr hk] at h
      simp only [Option.some.injEq] at h
      subst hk
      rw [← h]
      exact List.mem_cons_self _ _
    · rw [beq_eq_false_iff_ne.mpr hk] at h
      exact List.mem_cons_of_mem _ (ih h)

theorem cond_prob_foldl (feat : String) (v y : Int) (data : List Site)
    (a b : Nat) :
    data.foldl
      (fun (acc : Nat × Nat) site =>
        if site "Result" = y then
          (acc.1 + 1, (if site feat = v then acc.2 + 1 else acc.2))
        else acc)
      (a, b)
    = (a + data.countP (fun s => decide (s "Result" = y)),
       b + data.countP (fun s => decide (s "Result" = y ∧ s feat = v))) := by
  induction data generalizing a b with
  | nil => simp
  | cons s t ih =>
    by_cases h1 : s "Result" = y <;> by_cases h2 : s feat = v <;>
      simp [List.foldl_cons, List.countP_cons, h1, h2, ih, Nat.add_comm,
        Nat.add_left_comm, Nat.add_assoc]

theorem cond_prob_eq (feat : String) (v y : Int) (data : List Site) :
    cond_prob feat v y data
    = ((data.countP (fun s => decide (s "Result" = y ∧ s feat = v)) : ℚ) + 1) /
      ((data.countP (fun s => decide (s "Result" = y)) : ℚ) + 2) := by
  unfold cond_prob
  rw [cond_prob_foldl]
  simp

theorem cond_prob_pos_lt_one (feat : String) (v y : Int) (data : List Site) :
    0 < cond_prob feat v y data ∧ cond_prob feat v y data < 1 := by
  rw [cond_prob_eq]
  have hle : data.countP (fun s => decide (s "Result" = y ∧ s feat = v))
      ≤ data.countP (fun s => decide (s "Result" = y)) := by
    apply List.countP_mono_left
    intro s _ hs
    simp only [decide_eq_true_eq] at hs ⊢
    exact hs.1
  constructor
  · apply div_pos <;> positivity
  · rw [div_lt_one (by positivity)]
    have : (data.countP (fun s => decide (s "Result" = y ∧ s feat = v)) : ℚ)
        ≤ (data.countP (fun s => decide (s "Result" = y)) : ℚ) := by
      exact_mod_cast hle
    linarith

theorem calc_p_y_foldl (data : List Site) (a : Nat) :
    data.foldl (fun acc site => if site "Result" = 1 then acc + 1 else acc) a
    = a + data.countP (fun s => decide (s "Result" = 1)) := by
  induction data generalizing a with
  | nil => simp
  | cons s t ih =>
    by_cases h1 : s "Result" = 1 <;>
      simp [List.foldl_cons, List.countP_cons, h1, ih, Nat.add_comm,
        Nat.add_left_comm, Nat.add_assoc]

theorem calc_p_y_eq (data : List Site) :
    calc_p_y data
    = (data.countP (fun s => decide (s "Result" = 1)) : ℚ) / (data.length : ℚ) := by
  unfold calc_p_y
  rw [calc_p_y_foldl]
  simp

theorem impact_counts_foldl (threshold : Int) (name : String) (data : List Site)
    (a b c : Nat) :
    data.foldl
      (fun (acc : Nat × Nat × Nat) site =>
        if threshold ≤ site name then
          (acc.1 + 1,
           (if site "Result" = 1 then acc.2.1 + 1 else acc.2.1),
           acc.2.2)
        else
          (acc.1,
           acc.2.1,
           (if site "Result" = 1 then acc.2.2 + 1 else acc.2.2)))
      (a, b, c)
    = (a + data.countP (fun s => decide (threshold ≤ s name)),
       b + data.countP (fun s => decide (threshold ≤ s name ∧ s "Result" = 1)),
       c + data.countP (fun s => decide (¬ threshold ≤ s name ∧ s "Result" = 1))) := by
  induction data generalizing a b c with
  | nil => simp
  | cons s t ih =>
    by_cases h1 : threshold ≤ s name <;> by_cases h2 : s "Result" = 1 <;>
        simp [List.foldl_cons, List.countP_cons, h1, h2, ih, Nat.add_comm,
          Nat.add_left_comm, Nat.add_assoc] <;>
      rw [if_pos (Int.not_le.mp h1)]

theorem impact_counts_eq (threshold : Int) (name : String) (data : List Site) :
    impact_counts threshold name data
    = (data.countP (fun s => decide (threshold ≤ s name)),
       data.countP (fun s => decide (threshold ≤ s name ∧ s "Result" = 1)),
       data.countP (fun s => decide (¬ threshold ≤ s name ∧ s "Result" = 1))) := by
  unfold impact_counts
  rw [impact_counts_foldl]
  simp

theorem lookupPair_calc_probs {X : List String} {data : List Site}
    {Xi vstr : String} {p : ℚ × ℚ}
    (h : lookupPair (calc_probs_given_y X data) Xi vstr = some p) :
    ∃ v : Int, v ∈ calc_support X data Xi ∧ toString v = vstr ∧
      p = (cond_prob Xi v (-1) data, cond_prob Xi v 1 data) := by
  unfold lookupPair at h
  cases hl : List.lookup Xi (calc_probs_given_y X data) with
  | none => rw [hl] at h; simp at h
  | some inner =>
    rw [hl] at h
    simp only [Option.bind_some, Option.some_bind] at h
    have hmem := lookup_some_mem hl
    unfold calc_probs_given_y at hmem
    rw [List.mem_map] at hmem
    obtain ⟨Xi2, hXi2, heq⟩ := hmem
    have hXi : Xi2 = Xi := congrArg Prod.fst heq
    have hinner : inner
        = ((calc_support X data Xi).sort (· ≤ ·)).map
            (fun val =>
              (toString val,
               (cond_prob Xi val (-1) data, cond_prob Xi val 1 data))) := by
      have := congrArg Prod.snd heq
      simp only at this
      rw [← this, hXi]
    have hmem2 := lookup_some_mem h
    rw [hinner, List.mem_map] at hmem2
    obtain ⟨v, hv, heq2⟩ := hmem2
    refine ⟨v, ?_, ?_, ?_⟩
    · exact (Finset.mem_sort (α := ℤ) (· ≤ ·)).mp hv
    · exact congrArg Prod.fst heq2
    · exact (congrArg Prod.snd heq2).symm

/-- Claim C4: every conditional probability stored in the trained table lies
strictly between 0 and 1 — never exactly 0 or 1 — including for values with
zero raw co-occurrence count and for a class with zero rows. -/
theorem claim_C4_table_probs_strictly_between
    (X : List String) (data : List Site) (Xi vstr : String) (p : ℚ × ℚ)
    (h : lookupPair (calc_probs_given_y X data) Xi vstr = some p) :
    0 < p.1 ∧ p.1 < 1 ∧ 0 < p.2 ∧ p.2 < 1 := by
  obtain ⟨v, -, -, rfl⟩ := lookupPair_calc_probs h
  obtain ⟨h1, h2⟩ := cond_prob_pos_lt_one Xi v (-1) data
  obtain ⟨h3, h4⟩ := cond_prob_pos_lt_one Xi v 1 data
  exact ⟨h1, h2, h3, h4⟩

theorem probs_eval_A0 :
    calc_probs_given_y ["A"] [siteA0neg]
      = [("A", [("0", ((2:ℚ)/3, (1:ℚ)/2))])] := by
  have hsup : calc_support ["A"] [siteA0neg] "A" = ({0} : Finset ℤ) := by decide
  have hc1 : cond_prob "A" 0 (-1) [siteA0neg] = 2/3 := by
    simp [cond_prob, siteA0neg]
    norm_num
  have hc2 : cond_prob "A" 0 1 [siteA0neg] = 1/2 := by
    simp [cond_prob, siteA0neg]
  simp [calc_probs_given_y, hsup, Finset.sort_singleton, hc1, hc2]
  rfl

/-- Witness for C4 at a concrete trained table. -/
theorem claim_C4_witness :
    lookupPair (calc_probs_given_y ["A"] [siteA0neg]) "A" "0"
      = some ((2:ℚ)/3, (1:ℚ)/2) ∧
    (0 < ((2:ℚ)/3, (1:ℚ)/2).1 ∧ ((2:ℚ)/3, (1:ℚ)/2).1 < 1 ∧
     0 < ((2:ℚ)/3, (1:ℚ)/2).2 ∧ ((2:ℚ)/3, (1:ℚ)/2).2 < 1) := by
  have h : lookupPair (calc_probs_given_y ["A"] [siteA0neg]) "A" "0"
      = some ((2:ℚ)/3, (1:ℚ)/2) := by
    rw [probs_eval_A0]
    simp [lookupPair]
  exact ⟨h, claim_C4_table_probs_strictly_between ["A"] [siteA0neg] "A" "0" _ h⟩

/-- Claim C3: for a training dataset with rows of both classes, every stored
conditional probability is (count(X_i=v and Y=y) + 1) / (count(Y=y) + 2) for
y in -1, 1, and the prior is count(Y=1) / total_rows with no smoothing. -/
theorem claim_C3_train_formulas (X : List String) (data : List Site)
    (hpos : ∃ s ∈ data, s "Result" = 1) (hneg : ∃ s ∈ data, s "Result" = -1) :
    (∀ Xi vstr p, lookupPair (train X data).1 Xi vstr = some p →
      ∃ v : Int, toString v = vstr ∧
        p = (((data.countP (fun s => decide (s "Result" = -1 ∧ s Xi = v)) : ℚ) + 1) /
               ((data.countP (fun s => decide (s "Result" = -1)) : ℚ) + 2),
             ((data.countP (fun s => decide (s "Result" = 1 ∧ s Xi = v)) : ℚ) + 1) /
               ((data.countP (fun s => decide (s "Result" = 1)) : ℚ) + 2))) ∧
    (train X data).2
      = (data.countP (fun s => decide (s "Result" = 1)) : ℚ) / (data.length : ℚ) := by
  constructor
  · intro Xi vstr p h
    have h2 : lookupPair (calc_probs_given_y X data) Xi vstr = some p := h
    obtain ⟨v, -, hstr, rfl⟩ := lookupPair_calc_probs h2
    exact ⟨v, hstr, by rw [cond_prob_eq, cond_prob_eq]⟩
  · exact calc_p_y_eq data

/-- Witness for C3 on a two-row dataset with one row of each class. -/
theorem claim_C3_witness :
    (∃ s ∈ [siteA0neg, siteA0pos], s "Result" = 1) ∧
    (∃ s ∈ [siteA0neg, siteA0pos], s "Result" = -1) ∧
    ((∀ Xi vstr p,
        lookupPair (train ["A"] [siteA0neg, siteA0pos]).1 Xi vstr = some p →
        ∃ v : Int, toString v = vstr ∧
          p = ((([siteA0neg, siteA0pos].countP
                    (fun s => decide (s "Result" = -1 ∧ s Xi = v)) : ℚ) + 1) /
                 (([siteA0neg, siteA0pos].countP
                    (fun s => decide (s "Result" = -1)) : ℚ) + 2),
               (([siteA0neg, siteA0pos].countP
                    (fun s => decide (s "Result" = 1 ∧ s Xi = v)) : ℚ) + 1) /
                 (([siteA0neg, siteA0pos].countP
                    (fun s => decide (s "Result" = 1)) : ℚ) + 2))) ∧
      (train ["A"] [siteA0neg, siteA0pos]).2
        = (([siteA0neg, siteA0pos].countP
              (fun s => decide (s "Result" = 1)) : ℚ) /
            (([siteA0neg, siteA0pos] : List Site).length : ℚ))) := by
  refine ⟨⟨siteA0pos, by simp, by simp [siteA0pos]⟩,
          ⟨siteA0neg, by simp, by simp [siteA0neg]⟩,
          claim_C3_train_formulas ["A"] [siteA0neg, siteA0pos]
            ⟨siteA0pos, by simp, by simp [siteA0pos]⟩
            ⟨siteA0neg, by simp, by simp [siteA0neg]⟩⟩

/-- Claim C1 (code bug exhibited): on a one-row dataset where feature A takes
only the value 0 and feature B only the value 1, the support computed for A
is the shared set containing both observed values of both features, and the
trained table for A therefore has an entry keyed by the string "1" — a value
never observed for A, only for B.  The per-feature support described by the
specification and by the notebook narration would be the singleton 0. -/
theorem claim_C1_shared_support_bug :
    calc_support ["A", "B"] [siteAB] "A" = ({0, 1} : Finset ℤ) ∧
    lookupPair (calc_probs_given_y ["A", "B"] [siteAB]) "A" "1"
      = some ((1:ℚ)/3, (1:ℚ)/2) := by
  have hsup : calc_support ["A", "B"] [siteAB] "A" = ({0, 1} : Finset ℤ) := by
    decide
  have hsupB : calc_support ["A", "B"] [siteAB] "B" = ({0, 1} : Finset ℤ) := by
    decide
  have hnot : (0 : ℤ) ∉ ({1} : Finset ℤ) := by decide
  have hle : ∀ b ∈ ({1} : Finset ℤ), (0 : ℤ) ≤ b := by decide
  have hsort : Finset.sort (· ≤ ·) ({0, 1} : Finset ℤ) = [0, 1] := by
    rw [show ({0, 1} : Finset ℤ) = insert 0 {1} from rfl,
        Finset.sort_insert (· ≤ ·) hle hnot, Finset.sort_singleton]
  have hcA1n : cond_prob "A" 1 (-1) [siteAB] = 1/3 := by
    simp [cond_prob, siteAB]
    norm_num
  have hcA1p : cond_prob "A" 1 1 [siteAB] = 1/2 := by
    simp [cond_prob, siteAB]
  refine ⟨hsup, ?_⟩
  simp [calc_probs_given_y, hsup, hsupB, hsort, lookupPair, hcA1n, hcA1p]
  rfl

/-- Claim C8 (amended): training on a nonempty dataset with zero rows of one
label class does not fail — it silently returns a model whose prior is
exactly 0 (zero phishing rows) or exactly 1 (zero legitimate rows, every row
carrying the phishing label), and every subsequent prediction with that
model raises the math domain error that log(0), respectively log(1 - p_y)
at p_y = 1, produces. -/
theorem claim_C8_amended (X : List String) (data : List Site)
    (hne : data ≠ []) :
    ((∀ s ∈ data, s "Result" ≠ 1) →
      (train X data).2 = 0 ∧
      ∀ site : Site,
        prediction site X (train X data).1 (train X data).2
          = .error .domainError) ∧
    ((∀ s ∈ data, s "Result" = 1) →
      (train X data).2 = 1 ∧
      ∀ site : Site,
        prediction site X (train X data).1 (train X data).2
          = .error .domainError) := by
  constructor
  · intro h
    have hz : (train X data).2 = 0 := by
      show calc_p_y data = 0
      rw [calc_p_y_eq]
      have hc : data.countP (fun s => decide (s "Result" = 1)) = 0 :=
        List.countP_eq_zero.mpr (by intro a ha; simpa using h a ha)
      rw [hc]
      simp
    refine ⟨hz, ?_⟩
    intro site
    rw [hz]
    simp only [prediction]
    norm_num
  · intro h
    have hlenq : (data.length : ℚ) ≠ 0 := by
      have hlen : data.length ≠ 0 := by
        simpa [List.length_eq_zero] using hne
      exact_mod_cast hlen
    have ho : (train X data).2 = 1 := by
      show calc_p_y data = 1
      rw [calc_p_y_eq]
      have hc : data.countP (fun s => decide (s "Result" = 1)) = data.length :=
        List.countP_eq_length.mpr (by intro a ha; simpa using h a ha)
      rw [hc, div_self hlenq]
    refine ⟨ho, ?_⟩
    intro site
    rw [ho]
    simp only [prediction]
    norm_num

/-- Counterexample to C8 as stated: on a one-row dataset whose only row is
legitimate, train returns a normal model (no failure) with prior 0, and a
prediction against that model then fails with the log(0) domain error. -/
theorem claim_C8_counterexample :
    train ["A"] [siteNeg] = ([("A", [("-1", ((2:ℚ)/3, (1:ℚ)/2))])], 0) ∧
    prediction siteNeg ["A"] [("A", [("-1", ((2:ℚ)/3, (1:ℚ)/2))])] 0
      = .error .domainError := by
  have hsup : calc_support ["A"] [siteNeg] "A" = ({-1} : Finset ℤ) := by decide
  have hc1 : cond_prob "A" (-1) (-1) [siteNeg] = 2/3 := by
    simp [cond_prob, siteNeg]
    norm_num
  have hc2 : cond_prob "A" (-1) 1 [siteNeg] = 1/2 := by
    simp [cond_prob, siteNeg]
  have hpy : calc_p_y [siteNeg] = 0 := by
    simp [calc_p_y, siteNeg]
  constructor
  · show (calc_probs_given_y ["A"] [siteNeg], calc_p_y [siteNeg]) = _
    rw [hpy]
    simp [calc_probs_given_y, hsup, Finset.sort_singleton, hc1, hc2]
    rfl
  · simp only [prediction]
    norm_num

/-- Witness for the amended C8: a one-row all-legitimate dataset gives prior
exactly 0, a one-row all-phishing dataset gives prior exactly 1, and the
concrete predictions on both resulting models raise the domain error. -/
theorem claim_C8_witness :
    ([siteNeg] : List Site) ≠ [] ∧
    (∀ s ∈ [siteNeg], s "Result" ≠ 1) ∧
    ((train ["A"] [siteNeg]).2 = 0 ∧
     prediction siteNeg ["A"] (train ["A"] [siteNeg]).1 (train ["A"] [siteNeg]).2
       = .error .domainError) ∧
    ([siteA0pos] : List Site) ≠ [] ∧
    (∀ s ∈ [siteA0pos], s "Result" = 1) ∧
    ((train ["A"] [siteA0pos]).2 = 1 ∧
     prediction siteA0pos ["A"] (train ["A"] [siteA0pos]).1 (train ["A"] [siteA0pos]).2
       = .error .domainError) := by
  have h1 : ∀ s ∈ ([siteNeg] : List Site), s "Result" ≠ 1 := by
    intro s hs
    simp at hs
    simp [hs, siteNeg]
  have h2 : ∀ s ∈ ([siteA0pos] : List Site), s "Result" = 1 := by
    intro s hs
    simp at hs
    simp [hs, siteA0pos]
  have ha := (claim_C8_amended ["A"] [siteNeg] (by simp)).1 h1
  have hb := (claim_C8_amended ["A"] [siteA0pos] (by simp)).2 h2
  exact ⟨by simp, h1, ⟨ha.1, ha.2 siteNeg⟩, by simp, h2, ⟨hb.1, hb.2 siteA0pos⟩⟩

theorem parseInner_dump (inner : List (String × (ℚ × ℚ))) :
    parseInner (inner.map (fun e => (e.1, JVal.arr [JVal.num e.2.1, JVal.num e.2.2])))
      = some inner := by
  induction inner with
  | nil => rfl
  | cons e t ih => simp [parseInner, ih]

theorem parseTop_dump (t : TopVal) : parseTop (dumpTop t) = some t := by
  cases t with
  | inl inner => simp [dumpTop, parseTop, parseInner_dump]
  | inr q => rfl

theorem parseEntries_dump (d : ModelDict) :
    parseEntries (d.map (fun e => (e.1, dumpTop e.2))) = some d := by
  induction d with
  | nil => rfl
  | cons e t ih => simp [parseEntries, parseTop_dump, ih]

theorem load_dump (d : ModelDict) : load_model (dumpModel d) = some d :=
  parseEntries_dump d

/-- Claim C5: deserialising the serialised artifact reproduces the model
exactly — every probability value and the prior to full numeric precision
(numbers are exact here; Python floats round-trip exactly through repr). -/
theorem claim_C5_roundtrip (probs_given_y : ModelDict) (p_y : ℚ) :
    load_model (save_model probs_given_y p_y).2
      = some (save_model probs_given_y p_y).1 :=
  load_dump (setKey probs_given_y "p_y" (.inr p_y))

/-- Counterexample to C6 as stated: serialising mutates the table passed in —
after save_model the caller-visible dict is no longer the original table. -/
theorem claim_C6_counterexample :
    (save_model [("A", (Sum.inl [] : TopVal))] 1).1
      ≠ [("A", (Sum.inl [] : TopVal))] := by
  decide

/-- Claim C6 (amended): save_model mutates the table passed in by appending
the single reserved key p_y (when that key is not already present); it
modifies no existing entry and adds no other key. -/
theorem claim_C6_amended (probs : ModelDict) (p_y : ℚ)
    (h : ∀ e ∈ probs, e.1 ≠ "p_y") :
    (save_model probs p_y).1 = probs ++ [("p_y", Sum.inr p_y)] := by
  show setKey probs "p_y" (Sum.inr p_y) = _
  unfold setKey
  have hany : probs.any (fun e => e.1 == "p_y") = false := by
    rw [List.any_eq_false]
    intro e he
    simpa using h e he
  simp [hany]

/-- Witness for the amended C6. -/
theorem claim_C6_witness :
    (∀ e ∈ [("A", (Sum.inl [] : TopVal))], e.1 ≠ "p_y") ∧
    (save_model [("A", (Sum.inl [] : TopVal))] 1).1
      = [("A", (Sum.inl [] : TopVal))] ++ [("p_y", Sum.inr 1)] :=
  ⟨by simp, claim_C6_amended [("A", (Sum.inl [] : TopVal))] 1 (by simp)⟩

theorem log_cast_prod (l : List ℚ) (h : ∀ x ∈ l, 0 < x) :
    Real.log ((l.prod : ℚ) : ℝ) = (l.map (fun q => Real.log ((q : ℚ) : ℝ))).sum := by
  induction l with
  | nil => simp
  | cons q t ih =>
    have hq : 0 < q := h q (List.mem_cons_self _ _)
    have ht : ∀ x ∈ t, 0 < x := fun x hx => h x (List.mem_cons_of_mem _ hx)
    have hprodt : (0 : ℚ) < t.prod := List.prod_pos ht
    rw [List.prod_cons, List.map_cons, List.sum_cons, ← ih ht]
    have hcast : ((q * t.prod : ℚ) : ℝ) = ((q : ℚ) : ℝ) * ((t.prod : ℚ) : ℝ) := by
      push_cast
      ring
    rw [hcast,
        Real.log_mul (Rat.cast_ne_zero.mpr (ne_of_gt hq))
          (Rat.cast_ne_zero.mpr (ne_of_gt hprodt))]

theorem predGo_ok (site : Site) (probs : ProbTable) (X : List String)
    (H : ∀ Xi ∈ X, ∃ p : ℚ × ℚ,
      lookupPair probs Xi (toString (site Xi)) = some p ∧ 0 < p.1 ∧ 0 < p.2) :
    ∀ an ap : ℚ, predGo site probs X an ap
      = .ok (an * (X.map
              (fun Xi => ((lookupPair probs Xi (toString (site Xi))).getD (1, 1)).1)).prod,
             ap * (X.map
              (fun Xi => ((lookupPair probs Xi (toString (site Xi))).getD (1, 1)).2)).prod) := by
  induction X with
  | nil => intro an ap; simp [predGo]
  | cons Xi rest ih =>
    intro an ap
    obtain ⟨p, hp, hp1, hp2⟩ := H Xi (List.mem_cons_self _ _)
    rw [predGo, hp]
    simp only [if_neg (not_le.mpr hp1), if_neg (not_le.mpr hp2)]
    rw [ih (fun x hx => H x (List.mem_cons_of_mem _ hx))]
    simp [hp, mul_assoc]

/-- Claim C2: prediction initialises score(-1) = log(1 - p_y) and
score(1) = log(p_y), adds for each listed feature the log of the table
entry at the stringified record value (component 0 for label -1, component
1 for label 1), returns phishing exactly when score(1) strictly exceeds
score(-1), and classifies a tie as legitimate (false). -/
theorem claim_C2_prediction_log_domain
    (site : Site) (X : List String) (probs : ProbTable) (p_y : ℚ)
    (hp0 : 0 < p_y) (hp1 : p_y < 1)
    (H : ∀ Xi ∈ X, ∃ p : ℚ × ℚ,
      lookupPair probs Xi (toString (site Xi)) = some p ∧ 0 < p.1 ∧ 0 < p.2) :
    ∃ b : Bool,
      prediction site X probs p_y = .ok b ∧
      (b = true ↔
        Real.log ((p_y : ℚ) : ℝ)
          + (X.map (fun Xi =>
              Real.log ((((lookupPair probs Xi (toString (site Xi))).getD (1, 1)).2 : ℚ) : ℝ))).sum
        > Real.log ((1 - p_y : ℚ) : ℝ)
          + (X.map (fun Xi =>
              Real.log ((((lookupPair probs Xi (toString (site Xi))).getD (1, 1)).1 : ℚ) : ℝ))).sum) ∧
      (Real.log ((p_y : ℚ) : ℝ)
          + (X.map (fun Xi =>
              Real.log ((((lookupPair probs Xi (toString (site Xi))).getD (1, 1)).2 : ℚ) : ℝ))).sum
        = Real.log ((1 - p_y : ℚ) : ℝ)
          + (X.map (fun Xi =>
              Real.log ((((lookupPair probs Xi (toString (site Xi))).getD (1, 1)).1 : ℚ) : ℝ))).sum
        → b = false) := by
  have hpos0 : ∀ q ∈ X.map
      (fun Xi => ((lookupPair probs Xi (toString (site Xi))).getD (1, 1)).1), 0 < q := by
    intro q hq
    rw [List.mem_map] at hq
    obtain ⟨Xi, hXi, rfl⟩ := hq
    obtain ⟨p, hp, h1, h2⟩ := H Xi hXi
    simpa [hp] using h1
  have hpos1 : ∀ q ∈ X.map
      (fun Xi => ((lookupPair probs Xi (toString (site Xi))).getD (1, 1)).2), 0 < q := by
    intro q hq
    rw [List.mem_map] at hq
    obtain ⟨Xi, hXi, rfl⟩ := hq
    obtain ⟨p, hp, h1, h2⟩ := H Xi hXi
    simpa [hp] using h2
  have hP0 : (0 : ℚ) < (X.map
      (fun Xi => ((lookupPair probs Xi (toString (site Xi))).getD (1, 1)).1)).prod :=
    List.prod_pos hpos0
  have hP1 : (0 : ℚ) < (X.map
      (fun Xi => ((lookupPair probs Xi (toString (site Xi))).getD (1, 1)).2)).prod :=
    List.prod_pos hpos1
  have hpred : prediction site X probs p_y
      = .ok (decide
          ((1 - p_y) * (X.map
            (fun Xi => ((lookupPair probs Xi (toString (site Xi))).getD (1, 1)).1)).prod
          < p_y * (X.map
            (fun Xi => ((lookupPair probs Xi (toString (site Xi))).getD (1, 1)).2)).prod)) := by
    unfold prediction
    rw [if_neg (not_le.mpr (by linarith)), if_neg (not_le.mpr hp0),
        predGo_ok site probs X H]
  have hsum0 : (X.map (fun Xi =>
        Real.log ((((lookupPair probs Xi (toString (site Xi))).getD (1, 1)).1 : ℚ) : ℝ))).sum
      = Real.log (((X.map
          (fun Xi => ((lookupPair probs Xi (toString (site Xi))).getD (1, 1)).1)).prod : ℚ) : ℝ) := by
    rw [log_cast_prod _ hpos0, List.map_map]
    rfl
  have hsum1 : (X.map (fun Xi =>
        Real.log ((((lookupPair probs Xi (toString (site Xi))).getD (1, 1)).2 : ℚ) : ℝ))).sum
      = Real.log (((X.map
          (fun Xi => ((lookupPair probs Xi (toString (site Xi))).getD (1, 1)).2)).prod : ℚ) : ℝ) := by
    rw [log_cast_prod _ hpos1, List.map_map]
    rfl
  have hm0 : Real.log ((1 - p_y : ℚ) : ℝ)
      + Real.log (((X.map
          (fun Xi => ((lookupPair probs Xi (toString (site Xi))).getD (1, 1)).1)).prod : ℚ) : ℝ)
      = Real.log (((1 - p_y) * (X.map
          (fun Xi => ((lookupPair probs Xi (toString (site Xi))).getD (1, 1)).1)).prod : ℚ) : ℝ) := by
    have hc : (((1 - p_y) * (X.map
          (fun Xi => ((lookupPair probs Xi (toString (site Xi))).getD (1, 1)).1)).prod : ℚ) : ℝ)
        = ((1 - p_y : ℚ) : ℝ) * (((X.map
          (fun Xi => ((lookupPair probs Xi (toString (site Xi))).getD (1, 1)).1)).prod : ℚ) : ℝ) := by
      push_cast
      ring
    rw [hc, Real.log_mul (Rat.cast_ne_zero.mpr (by linarith))
        (Rat.cast_ne_zero.mpr (ne_of_gt hP0))]
  have hm1 : Real.log ((p_y : ℚ) : ℝ)
      + Real.log (((X.map
          (fun Xi => ((lookupPair probs Xi (toString (site Xi))).getD (1, 1)).2)).prod : ℚ) : ℝ)
      = Real.log ((p_y * (X.map
          (fun Xi => ((lookupPair probs Xi (toString (site Xi))).getD (1, 1)).2)).prod : ℚ) : ℝ) := by
    have hc : ((p_y * (X.map
          (fun Xi => ((lookupPair probs Xi (toString (site Xi))).getD (1, 1)).2)).prod : ℚ) : ℝ)
        = ((p_y : ℚ) : ℝ) * (((X.map
          (fun Xi => ((lookupPair probs Xi (toString (site Xi))).getD (1, 1)).2)).prod : ℚ) : ℝ) := by
      push_cast
      ring
    rw [hc, Real.log_mul (Rat.cast_ne_zero.mpr (ne_of_gt hp0))
        (Rat.cast_ne_zero.mpr (ne_of_gt hP1))]
  have key : ((1 - p_y) * (X.map
        (fun Xi => ((lookupPair probs Xi (toString (site Xi))).getD (1, 1)).1)).prod
      < p_y * (X.map
        (fun Xi => ((lookupPair probs Xi (toString (site Xi))).getD (1, 1)).2)).prod)
      ↔ (Real.log ((p_y : ℚ) : ℝ)
          + (X.map (fun Xi =>
              Real.log ((((lookupPair probs Xi (toString (site Xi))).getD (1, 1)).2 : ℚ) : ℝ))).sum
        > Real.log ((1 - p_y : ℚ) : ℝ)
          + (X.map (fun Xi =>
              Real.log ((((lookupPair probs Xi (toString (site Xi))).getD (1, 1)).1 : ℚ) : ℝ))).sum) := by
    rw [gt_iff_lt, hsum0, hsum1, hm0, hm1,
        Real.log_lt_log_iff
          (by exact_mod_cast mul_pos (by linarith) hP0)
          (by exact_mod_cast mul_pos hp0 hP1),
        Rat.cast_lt]
  refine ⟨_, hpred, ?_, ?_⟩
  · rw [decide_eq_true_iff]
    exact key
  · intro htie
    have : ¬ ((1 - p_y) * (X.map
        (fun Xi => ((lookupPair probs Xi (toString (site Xi))).getD (1, 1)).1)).prod
      < p_y * (X.map
        (fun Xi => ((lookupPair probs Xi (toString (site Xi))).getD (1, 1)).2)).prod) := by
      rw [key, htie]
      exact lt_irrefl _
    simpa using this

/-- Witness for C2 at a concrete one-feature model. -/
theorem claim_C2_witness :
    (0 < (1/2 : ℚ)) ∧ ((1/2 : ℚ) < 1) ∧
    (∀ Xi ∈ ["A"], ∃ p : ℚ × ℚ,
      lookupPair [("A", [("0", ((1:ℚ)/4, (1:ℚ)/2))])] Xi (toString (siteA0neg Xi))
          = some p ∧ 0 < p.1 ∧ 0 < p.2) ∧
    (∃ b : Bool,
      prediction siteA0neg ["A"] [("A", [("0", ((1:ℚ)/4, (1:ℚ)/2))])] (1/2) = .ok b ∧
      (b = true ↔
        Real.log (((1/2 : ℚ) : ℚ) : ℝ)
          + (["A"].map (fun Xi =>
              Real.log ((((lookupPair [("A", [("0", ((1:ℚ)/4, (1:ℚ)/2))])] Xi
                (toString (siteA0neg Xi))).getD (1, 1)).2 : ℚ) : ℝ))).sum
        > Real.log ((1 - (1/2 : ℚ) : ℚ) : ℝ)
          + (["A"].map (fun Xi =>
              Real.log ((((lookupPair [("A", [("0", ((1:ℚ)/4, (1:ℚ)/2))])] Xi
                (toString (siteA0neg Xi))).getD (1, 1)).1 : ℚ) : ℝ))).sum) ∧
      (Real.log (((1/2 : ℚ) : ℚ) : ℝ)
          + (["A"].map (fun Xi =>
              Real.log ((((lookupPair [("A", [("0", ((1:ℚ)/4, (1:ℚ)/2))])] Xi
                (toString (siteA0neg Xi))).getD (1, 1)).2 : ℚ) : ℝ))).sum
        = Real.log ((1 - (1/2 : ℚ) : ℚ) : ℝ)
          + (["A"].map (fun Xi =>
              Real.log ((((lookupPair [("A", [("0", ((1:ℚ)/4, (1:ℚ)/2))])] Xi
                (toString (siteA0neg Xi))).getD (1, 1)).1 : ℚ) : ℝ))).sum
        → b = false)) := by
  have hH : ∀ Xi ∈ ["A"], ∃ p : ℚ × ℚ,
      lookupPair [("A", [("0", ((1:ℚ)/4, (1:ℚ)/2))])] Xi (toString (siteA0neg Xi))
        = some p ∧ 0 < p.1 ∧ 0 < p.2 := by
    intro Xi hXi
    simp only [List.mem_singleton] at hXi
    subst hXi
    exact ⟨(1/4, 1/2), rfl, by norm_num, by norm_num⟩
  exact ⟨by norm_num, by norm_num, hH,
    claim_C2_prediction_log_domain siteA0neg ["A"]
      [("A", [("0", ((1:ℚ)/4, (1:ℚ)/2))])] (1/2)
      (by norm_num) (by norm_num) hH⟩

theorem predGo_keyError (site : Site) (probs : ProbTable) :
    ∀ (X : List String) (an ap : ℚ),
    (∀ Xi ∈ X, (∃ p : ℚ × ℚ,
        lookupPair probs Xi (toString (site Xi)) = some p ∧ 0 < p.1 ∧ 0 < p.2)
      ∨ lookupPair probs Xi (toString (site Xi)) = none) →
    (∃ Xi ∈ X, lookupPair probs Xi (toString (site Xi)) = none) →
    predGo site probs X an ap = .error .keyError := by
  intro X
  induction X with
  | nil =>
    intro an ap H Hmiss
    simp at Hmiss
  | cons Xi rest ih =>
    intro an ap H Hmiss
    cases hl : lookupPair probs Xi (toString (site Xi)) with
    | none => rw [predGo, hl]
    | some p =>
      rcases H Xi (List.mem_cons_self _ _) with ⟨q, hq, h1, h2⟩ | hnone
      · rw [hl] at hq
        rw [Option.some.injEq] at hq
        subst hq
        rw [predGo, hl]
        simp only [if_neg (not_le.mpr h1), if_neg (not_le.mpr h2)]
        apply ih
        · intro x hx
          exact H x (List.mem_cons_of_mem _ hx)
        · rcases Hmiss with ⟨x, hx, hxn⟩
          rcases List.mem_cons.mp hx with rfl | hx2
          · rw [hl] at hxn
            cases hxn
          · exact ⟨x, hx2, hxn⟩
      · rw [hl] at hnone
        cases hnone

/-- Claim C7: a record supplying, for some listed feature, a stringified
value with no entry in that feature of the table makes prediction fail with
the key-lookup error rather than silently defaulting to any probability.
The model is passed by value and the result is only the error, so the
failed prediction cannot modify the model. -/
theorem claim_C7_unseen_value_keyError
    (site : Site) (X : List String) (probs : ProbTable) (p_y : ℚ)
    (hp0 : 0 < p_y) (hp1 : p_y < 1)
    (H : ∀ Xi ∈ X, (∃ p : ℚ × ℚ,
        lookupPair probs Xi (toString (site Xi)) = some p ∧ 0 < p.1 ∧ 0 < p.2)
      ∨ lookupPair probs Xi (toString (site Xi)) = none)
    (Hmiss : ∃ Xi ∈ X, lookupPair probs Xi (toString (site Xi)) = none) :
    prediction site X probs p_y = .error .keyError := by
  unfold prediction
  rw [if_neg (not_le.mpr (by linarith)), if_neg (not_le.mpr hp0),
      predGo_keyError site probs X (1 - p_y) p_y H Hmiss]

/-- Witness for C7: the table knows value 5 for feature A, the record
supplies value 0. -/
theorem claim_C7_witness :
    (0 < (1/2 : ℚ)) ∧ ((1/2 : ℚ) < 1) ∧
    (∀ Xi ∈ ["A"], (∃ p : ℚ × ℚ,
        lookupPair [("A", [("5", ((1:ℚ)/4, (1:ℚ)/2))])] Xi (toString (siteA0neg Xi))
          = some p ∧ 0 < p.1 ∧ 0 < p.2)
      ∨ lookupPair [("A", [("5", ((1:ℚ)/4, (1:ℚ)/2))])] Xi (toString (siteA0neg Xi))
          = none) ∧
    (∃ Xi ∈ ["A"],
      lookupPair [("A", [("5", ((1:ℚ)/4, (1:ℚ)/2))])] Xi (toString (siteA0neg Xi))
        = none) ∧
    prediction siteA0neg ["A"] [("A", [("5", ((1:ℚ)/4, (1:ℚ)/2))])] (1/2)
      = .error .keyError := by
  have hH : ∀ Xi ∈ ["A"], (∃ p : ℚ × ℚ,
      lookupPair [("A", [("5", ((1:ℚ)/4, (1:ℚ)/2))])] Xi (toString (siteA0neg Xi))
        = some p ∧ 0 < p.1 ∧ 0 < p.2)
      ∨ lookupPair [("A", [("5", ((1:ℚ)/4, (1:ℚ)/2))])] Xi (toString (siteA0neg Xi))
        = none := by
    intro Xi hXi
    simp only [List.mem_singleton] at hXi
    subst hXi
    right
    rfl
  have hMiss : ∃ Xi ∈ ["A"],
      lookupPair [("A", [("5", ((1:ℚ)/4, (1:ℚ)/2))])] Xi (toString (siteA0neg Xi))
        = none :=
    ⟨"A", List.mem_singleton.mpr rfl, rfl⟩
  exact ⟨by norm_num, by norm_num, hH, hMiss,
    claim_C7_unseen_value_keyError siteA0neg ["A"]
      [("A", [("5", ((1:ℚ)/4, (1:ℚ)/2))])] (1/2)
      (by norm_num) (by norm_num) hH hMiss⟩

/-- Claim C9 (amended): when the scored test partition has zero
predicted-positive rows (or zero actual-positive rows), the evaluator
raises ZeroDivisionError at the corresponding metric instead of reporting
it as undefined; the run aborts rather than producing the remaining
metrics. -/
theorem claim_C9_amended (X : List String) (train_data test_data : List Site)
    (cp cnp pp ap : Nat)
    (h : tallyGo X (train X train_data).1 (train X train_data).2 test_data
          (0, 0, 0, 0) = .ok (cp, cnp, pp, ap))
    (hz : pp = 0 ∨ ap = 0) :
    test X train_data test_data = .error .zeroDiv := by
  simp only [test]
  rw [h]
  rcases hz with rfl | rfl <;> split_ifs <;> first | rfl | simp_all

theorem probs_eval_batch :
    calc_probs_given_y ["A"] [siteA0neg, siteA0neg, siteA0pos]
      = [("A", [("0", ((3:ℚ)/4, (2:ℚ)/3))])] := by
  have hsup : calc_support ["A"] [siteA0neg, siteA0neg, siteA0pos] "A"
      = ({0} : Finset ℤ) := by decide
  have hc1 : cond_prob "A" 0 (-1) [siteA0neg, siteA0neg, siteA0pos] = 3/4 := by
    simp [cond_prob, siteA0neg, siteA0pos]
    norm_num
  have hc2 : cond_prob "A" 0 1 [siteA0neg, siteA0neg, siteA0pos] = 2/3 := by
    simp [cond_prob, siteA0neg, siteA0pos]
    norm_num
  simp [calc_probs_given_y, hsup, Finset.sort_singleton, hc1, hc2]
  rfl

theorem p_y_eval_batch : calc_p_y [siteA0neg, siteA0neg, siteA0pos] = 1/3 := by
  simp [calc_p_y, siteA0neg, siteA0pos]

theorem pred_eval_batch :
    prediction siteA0neg ["A"] [("A", [("0", ((3:ℚ)/4, (2:ℚ)/3))])] (1/3)
      = .ok false := by
  have hd : ((1 - (1:ℚ)/3) * ((3:ℚ)/4) < (1:ℚ)/3 * ((2:ℚ)/3)) = False := by
    norm_num
  have ht : toString (0 : ℤ) = "0" := rfl
  norm_num [prediction, predGo, lookupPair, siteA0neg, hd, ht, List.lookup_cons]

theorem tally_eval_batch :
    tallyGo ["A"]
      (train ["A"] [siteA0neg, siteA0neg, siteA0pos]).1
      (train ["A"] [siteA0neg, siteA0neg, siteA0pos]).2
      [siteA0neg] (0, 0, 0, 0) = .ok (0, 1, 0, 0) := by
  show tallyGo ["A"] (calc_probs_given_y ["A"] [siteA0neg, siteA0neg, siteA0pos])
      (calc_p_y [siteA0neg, siteA0neg, siteA0pos]) [siteA0neg] (0, 0, 0, 0) = _
  rw [probs_eval_batch, p_y_eval_batch, tallyGo, pred_eval_batch]
  simp [tallyGo, siteA0neg]

/-- Counterexample to C9 as stated: on a test partition with zero
predicted-positive rows, the evaluator raises ZeroDivisionError (zeroDiv)
instead of reporting precision as undefined. -/
theorem claim_C9_counterexample :
    test ["A"] [siteA0neg, siteA0neg, siteA0pos] [siteA0neg]
      = .error .zeroDiv := by
  simp only [test]
  rw [tally_eval_batch]
  rfl

/-- Witness for the amended C9 at the same concrete evaluation. -/
theorem claim_C9_witness :
    (tallyGo ["A"]
      (train ["A"] [siteA0neg, siteA0neg, siteA0pos]).1
      (train ["A"] [siteA0neg, siteA0neg, siteA0pos]).2
      [siteA0neg] (0, 0, 0, 0) = .ok (0, 1, 0, 0)) ∧
    ((0 : Nat) = 0 ∨ (0 : Nat) = 0) ∧
    test ["A"] [siteA0neg, siteA0neg, siteA0pos] [siteA0neg]
      = .error .zeroDiv :=
  ⟨tally_eval_batch, Or.inl rfl,
   claim_C9_amended ["A"] [siteA0neg, siteA0neg, siteA0pos] [siteA0neg]
     0 1 0 0 tally_eval_batch (Or.inl rfl)⟩

/-- Claim C10: the ranker considers exactly the columns between the
identifier column and the label column, computes for each the smoothed
probabilities (count+1)/(group size+2) for the at-least-threshold group and
the below-threshold group, forms their ratio (whose divisor is positive, so
the ratio is a well-defined rational even for an empty group), sorts
ascending by ratio, and returns the last k entries (the k highest-ratio
features). -/
theorem claim_C10_feature_impact (threshold : Int) (k : Nat)
    (names : List String) (data : List Site)
    (hk : k ≤ names.length - 2) :
    ∃ sorted : List (Nat × ℚ),
      sorted.Perm ((List.range' 1 (names.length - 2)).map
        (fun i => (i, feature_ratio threshold (names.getD i "") data))) ∧
      List.Sorted (fun a b : Nat × ℚ => a.2 ≤ b.2) sorted ∧
      calc_feature_impact threshold k names data
        = (sorted.drop (sorted.length - k)).map (fun p => names.getD p.1 "") ∧
      (calc_feature_impact threshold k names data).length = k ∧
      (∀ name : String, feature_ratio threshold name data
          = (((data.countP (fun s => decide (threshold ≤ s name ∧ s "Result" = 1)) : ℚ) + 1) /
             ((data.countP (fun s => decide (threshold ≤ s name)) : ℚ) + 2)) /
            (((data.countP (fun s => decide (¬ threshold ≤ s name ∧ s "Result" = 1)) : ℚ) + 1) /
             ((data.length : ℚ) - (data.countP (fun s => decide (threshold ≤ s name)) : ℚ) + 2)) ∧
        0 < ((data.countP (fun s => decide (¬ threshold ≤ s name ∧ s "Result" = 1)) : ℚ) + 1) /
             ((data.length : ℚ) - (data.countP (fun s => decide (threshold ≤ s name)) : ℚ) + 2)) := by
  refine ⟨((List.range' 1 (names.length - 2)).map
      (fun i => (i, feature_ratio threshold (names.getD i "") data))).mergeSort
        (fun a b => decide (a.2 ≤ b.2)), ?_, ?_, ?_, ?_, ?_⟩
  · exact List.mergeSort_perm _ _
  · have hp := @List.sorted_mergeSort (Nat × ℚ)
      (fun a b => decide (a.2 ≤ b.2))
      (fun a b c hab hbc => by
        simp only [decide_eq_true_eq] at hab hbc ⊢
        exact le_trans hab hbc)
      (fun a b => by
        simp only [Bool.or_eq_true, decide_eq_true_eq]
        exact le_total a.2 b.2)
      ((List.range' 1 (names.length - 2)).map
        (fun i => (i, feature_ratio threshold (names.getD i "") data)))
    exact hp.imp (fun h => by simpa using h)
  · rfl
  · have hlen : (((List.range' 1 (names.length - 2)).map
        (fun i => (i, feature_ratio threshold (names.getD i "") data))).mergeSort
          (fun a b => decide (a.2 ≤ b.2))).length = names.length - 2 := by
      rw [List.length_mergeSort, List.length_map, List.length_range']
    have hcfi : calc_feature_impact threshold k names data
        = ((((List.range' 1 (names.length - 2)).map
            (fun i => (i, feature_ratio threshold (names.getD i "") data))).mergeSort
              (fun a b => decide (a.2 ≤ b.2))).drop
              ((((List.range' 1 (names.length - 2)).map
                (fun i => (i, feature_ratio threshold (names.getD i "") data))).mergeSort
                  (fun a b => decide (a.2 ≤ b.2))).length - k)).map
            (fun p => names.getD p.1 "") := rfl
    rw [hcfi, List.length_map, List.length_drop, hlen]
    omega
  · intro name
    constructor
    · unfold feature_ratio
      rw [impact_counts_eq]
    · apply div_pos
      · positivity
      · have hcle : data.countP (fun s => decide (threshold ≤ s name)) ≤ data.length :=
          List.countP_le_length _
        have : (data.countP (fun s => decide (threshold ≤ s name)) : ℚ)
            ≤ (data.length : ℚ) := by exact_mod_cast hcle
        linarith

/-- Witness for C10 on a four-column schema with one data row. -/
theorem claim_C10_witness :
    (1 ≤ (["id", "A", "B", "Result"] : List String).length - 2) ∧
    (∃ sorted : List (Nat × ℚ),
      sorted.Perm ((List.range' 1 ((["id", "A", "B", "Result"] : List String).length - 2)).map
        (fun i => (i, feature_ratio 0 ((["id", "A", "B", "Result"] : List String).getD i "") [siteAB]))) ∧
      List.Sorted (fun a b : Nat × ℚ => a.2 ≤ b.2) sorted ∧
      calc_feature_impact 0 1 ["id", "A", "B", "Result"] [siteAB]
        = (sorted.drop (sorted.length - 1)).map
            (fun p => (["id", "A", "B", "Result"] : List String).getD p.1 "") ∧
      (calc_feature_impact 0 1 ["id", "A", "B", "Result"] [siteAB]).length = 1 ∧
      (∀ name : String, feature_ratio 0 name [siteAB]
          = ((([siteAB].countP (fun s => decide ((0:ℤ) ≤ s name ∧ s "Result" = 1)) : ℚ) + 1) /
             (([siteAB].countP (fun s => decide ((0:ℤ) ≤ s name)) : ℚ) + 2)) /
            ((([siteAB].countP (fun s => decide (¬ (0:ℤ) ≤ s name ∧ s "Result" = 1)) : ℚ) + 1) /
             ((([siteAB] : List Site).length : ℚ) - ([siteAB].countP (fun s => decide ((0:ℤ) ≤ s name)) : ℚ) + 2)) ∧
        0 < (([siteAB].countP (fun s => decide (¬ (0:ℤ) ≤ s name ∧ s "Result" = 1)) : ℚ) + 1) /
             ((([siteAB] : List Site).length : ℚ) - ([siteAB].countP (fun s => decide ((0:ℤ) ≤ s name)) : ℚ) + 2))) :=
  ⟨by norm_num,
   claim_C10_feature_impact 0 1 ["id", "A", "B", "Result"] [siteAB] (by norm_num)⟩
